import Mathlib

/-!
Verification development for `bert_multitask_learning/input_fn.py`.

The file is TensorFlow input-pipeline glue.  We embed it shallowly:

* a TF dataset pipeline is represented symbolically as the list of
  transformation steps applied to the sampled per-task stream
  (`DatasetOp`), in application order, mirroring the sequence of
  reassignments of `dataset` in `train_eval_input_fn`;
* feature dictionaries are association lists from feature name to an
  integer sequence (`Dict`);
* Python exceptions (IndexError on `inputs[0]`, missing files) are
  `Except` errors;
* the filesystem seen by `open(...).readlines()` is a partial map from
  path to the list of lines;
* repository code imported by `input_fn.py` but not present here
  (`write_tfrecord`, `read_tfrecord`, `create_bert_features`,
  `create_multimodal_bert_features`, the `bert_preprocessing` chain) is
  modelled from the spec; each such definition says so in its doc
  comment.
-/

namespace InputFn

/-- Configuration object (`Params`): the fields of the config that
`input_fn.py` reads, per the spec's recognized-options list.
`problem_list` stands for the set of configured tasks for which
tfrecords are written/read. -/
structure Params where
  vocab_file : String
  batch_size : Nat
  shuffle_buffer : Nat
  dynamic_padding : Bool
  bucket_batch_sizes : List Nat
  bucket_boundaries : List Nat
  max_seq_len : Nat
  problem_list : List String
deriving Repr, DecidableEq

/-- A feature dictionary: mapping from feature name to integer sequence,
as produced by the feature encoders (insertion order preserved, as in a
Python dict). -/
abbrev Dict := List (String × List Int)

/-- Keys of a feature dictionary, in insertion order. -/
def dictKeys (d : Dict) : List String := d.map Prod.fst

/-- Python dict lookup `d[k]` as an `Option` (`none` = KeyError). -/
def dictLookup (d : Dict) (k : String) : Option (List Int) :=
  match d with
  | [] => none
  | (k2, v) :: rest => if k2 = k then some v else dictLookup rest k

/-- Embedding of `element_length_func` (input_fn.py lines 22-23):
`tf.shape(yield_dict['input_ids'])[0]`, i.e. the length of the
`input_ids` sequence of the record; `none` models the KeyError when the
field is absent.  It is a plain function of the record (pure). -/
def element_length_func (yield_dict : Dict) : Option Nat :=
  (dictLookup yield_dict "input_ids").map List.length

/-- A symbolic dataset-transformation step of the train/eval pipeline. -/
inductive DatasetOp where
  | sampleFromDatasets (numTasks : Nat)
  | shuffle (buffer : Nat)
  | prefetchAutotune
  | bucketBySequenceLength (bucket_batch_sizes bucket_boundaries : List Nat)
  | batch (n : Nat)
deriving Repr, DecidableEq

/-- Embedding of the dataset-construction part of `train_eval_input_fn`
(input_fn.py lines 49-69): the steps applied, in order, to the stream
sampled from the per-task datasets. -/
def train_eval_pipeline (params : Params) (mode : String) : List DatasetOp :=
  [DatasetOp.sampleFromDatasets params.problem_list.length]
    ++ (if mode = "train" then [DatasetOp.shuffle params.shuffle_buffer] else [])
    ++ [DatasetOp.prefetchAutotune]
    ++ (if params.dynamic_padding then
          [DatasetOp.bucketBySequenceLength params.bucket_batch_sizes
            params.bucket_boundaries]
        else if mode = "train" then
          [DatasetOp.batch params.batch_size]
        else
          [DatasetOp.batch (params.batch_size * 2)])

/-- Modelled from the spec: `write_tfrecord` (module
`read_write_tfrecord`, not present in src/).  "ensures persisted records
exist for all configured tasks (invoking the Record Writer, idempotent -
a no-op if records already exist and are valid)".  The filesystem is the
list of tasks whose records exist; writing adds each configured task's
records unless they already exist. -/
def write_tfrecord (params : Params) (fs : List String) : List String :=
  params.problem_list.foldl
    (fun acc t => if t ∈ acc then acc else acc ++ [t]) fs

/-- Modelled from the spec: `read_tfrecord` (module
`read_write_tfrecord`, not present in src/).  Reconstructs the per-task
dataset dictionary from persisted records; fails if a configured task's
records are missing. -/
def read_tfrecord (params : Params) (fs : List String) :
    Except String (List String) :=
  if params.problem_list.all (fun t => t ∈ fs) then
    Except.ok params.problem_list
  else
    Except.error "missing tfrecord"

/-- Embedding of `train_eval_input_fn` (input_fn.py lines 26-69) as a
state-passing function: it first writes tfrecords (updating the
filesystem), then reads them back, then builds the symbolic pipeline.
Returns the updated filesystem and the pipeline. -/
def train_eval_input_fn (params : Params) (mode : String)
    (fs : List String) : Except String (List String × List DatasetOp) :=
  let fs2 := write_tfrecord params fs
  match read_tfrecord params fs2 with
  | Except.error e => Except.error e
  | Except.ok _ => Except.ok (fs2, train_eval_pipeline params mode)

/-- An element of a predict input list: either a plain string or a
dictionary; only the key set of a dictionary matters to `input_fn.py`
(the dispatch tests `isinstance(inputs[0], dict) and 'a' not in
inputs[0]`), so values are not modelled. -/
inductive InputItem where
  | str (s : String)
  | dict (keys : List String)
deriving Repr, DecidableEq

/-- Which feature encoder `predict_input_fn` selects. -/
inductive Encoder where
  | multimodal
  | standard
deriving Repr, DecidableEq

/-- The encoder-dispatch test of `predict_input_fn` (input_fn.py line
98): `isinstance(inputs[0], dict) and 'a' not in inputs[0]` selects the
multimodal encoder, anything else the standard one. -/
def selectEncoder (first : InputItem) : Encoder :=
  match first with
  | InputItem.dict keys =>
      if "a" ∈ keys then Encoder.standard else Encoder.multimodal
  | InputItem.str _ => Encoder.standard

/-- Builds the three-key feature dictionary, in the insertion order used
throughout `input_fn.py`. -/
def mkFeatureDict (ids mask seg : List Int) : Dict :=
  [("input_ids", ids), ("input_mask", mask), ("segment_ids", seg)]

/-- Modelled from the spec: the per-document BERT preprocessing chain
(`cluster_alphnum`, `tokenize_text_with_seqs`, `truncate_seq_pair`,
`add_special_tokens_with_seqs`, `create_mask_and_padding`,
`convert_tokens_to_ids` - all in modules not present in src/).  Per the
spec it tokenizes, truncates to the configured maximum sequence length,
and pads/masks to fixed shape, producing `input_ids`, `input_mask`,
`segment_ids`.  Token ids are modelled as character codes. -/
def encodeDoc (config : Params) (doc : String) : Dict :=
  let tokens := (doc.toList.map fun c => (c.toNat : Int)).take config.max_seq_len
  let n := tokens.length
  mkFeatureDict
    (tokens ++ List.replicate (config.max_seq_len - n) 0)
    (List.replicate n 1 ++ List.replicate (config.max_seq_len - n) 0)
    (List.replicate config.max_seq_len 0)

/-- Modelled from the spec: `create_bert_features` (module
`bert_preprocessing.create_bert_features`, not present in src/).  The
standard text Feature Encoder: "produces fixed-shape feature
dictionaries ... per example"; in PREDICT mode with no label encoder it
yields one feature dictionary per input element.  A dictionary input
(one containing key `'a'`) is encoded from its text fields, which are
not modelled, so it maps to the encoding of the empty document. -/
def create_bert_features (config : Params) (example_list : List InputItem) :
    List Dict :=
  example_list.map fun it =>
    match it with
    | InputItem.str s => encodeDoc config s
    | InputItem.dict _ => encodeDoc config ""

/-- Modelled from the spec: `create_multimodal_bert_features` (module
`bert_preprocessing.create_bert_features`, not present in src/).  The
multimodal Feature Encoder; like the standard one it produces one
fixed-shape feature dictionary per example.  The multimodal values are
not modelled. -/
def create_multimodal_bert_features (config : Params)
    (example_list : List InputItem) : List Dict :=
  example_list.map fun _ => encodeDoc config ""

/-- Splits a list into consecutive chunks of size `n` (the last chunk
may be shorter): the effect of `padded_batch(batch_size)` on the record
stream.  Fuel-based recursion; fuel is the list length. -/
def chunkAux (fuel n : Nat) (l : List α) : List (List α) :=
  match fuel, l with
  | 0, _ => []
  | _, [] => []
  | fuel + 1, l => l.take n :: chunkAux fuel n (l.drop n)

/-- Consecutive chunks of size `n` of `l`. -/
def chunked (n : Nat) (l : List α) : List (List α) :=
  chunkAux l.length n l

/-- The observable result of `predict_input_fn`: the selected encoder,
the eagerly computed list of encoded feature dictionaries, and the
batched dataset derived from it. -/
structure PredictResult where
  encoder : Encoder
  data_list : List Dict
  batches : List (List Dict)
deriving Repr, DecidableEq

/-- Resolution of `input_file_or_list` (input_fn.py lines 92-95): a
string is a file path read as newline-delimited lines
(`open(...).readlines()`, over the filesystem map `fs`); anything else
is used directly as the in-memory list. -/
def resolveInputs (input : String ⊕ List InputItem)
    (fs : String → Option (List String)) : Except String (List InputItem) :=
  match input with
  | Sum.inl path =>
      match fs path with
      | some lines => Except.ok (lines.map InputItem.str)
      | none => Except.error "FileNotFoundError"
  | Sum.inr l => Except.ok l

/-- Embedding of `predict_input_fn` (input_fn.py lines 72-129): resolve
the input to a list, dispatch on the first element (`inputs[0]` raises
IndexError on an empty list, before any dataset is constructed), eagerly
encode every element into `data_list`, then build the padded-batched
dataset from that list with the configured batch size. -/
def predict_input_fn (input : String ⊕ List InputItem)
    (fs : String → Option (List String)) (config : Params) :
    Except String PredictResult :=
  match resolveInputs input fs with
  | Except.error e => Except.error e
  | Except.ok inputs =>
      match inputs with
      | [] => Except.error "IndexError: list index out of range"
      | first :: _ =>
          let enc := selectEncoder first
          let data_list :=
            match enc with
            | Encoder.multimodal => create_multimodal_bert_features config inputs
            | Encoder.standard => create_bert_features config inputs
          Except.ok
            { encoder := enc
              data_list := data_list
              batches := chunked config.batch_size data_list }

/-- Extracts the selected encoder from a `predict_input_fn` outcome. -/
def encoderOfResult : Except String PredictResult → Option Encoder
  | Except.ok r => some r.encoder
  | Except.error _ => none

/-- An empty filesystem, for list-input calls where the filesystem is
irrelevant. -/
def fsEmpty : String → Option (List String) := fun _ => none

/-- State of the `to_serving_input` generator (input_fn.py lines
155-174).  The Python code allocates ONE dict `data_dict` before the
loop and re-assigns its three keys on each iteration, then yields the
same object; so the generator owns a single mutable cell.  `cell` is the
current content of that shared dict, `yields` the references yielded so
far (all of them reference the one cell, address 0), and `snaps` the
content the cell had at each yield (what a consumer copying eagerly
would see). -/
structure GenState where
  cell : Dict
  yields : List Nat
  snaps : List Dict
deriving Repr, DecidableEq

/-- One iteration of the `to_serving_input` loop: run the preprocessing
chain on the document, overwrite the three keys of the shared dict, and
yield a reference to it. -/
def servingStep (config : Params) (st : GenState) (doc : String) : GenState :=
  let d := encodeDoc config doc
  { cell := d, yields := st.yields ++ [0], snaps := st.snaps ++ [d] }

/-- Embedding of `to_serving_input` (input_fn.py lines 132-174) run to
exhaustion on an already-resolved input list: `data_dict = {}` then the
loop over the inputs. -/
def to_serving_input (config : Params) (inputs : List String) : GenState :=
  inputs.foldl (servingStep config) { cell := [], yields := [], snaps := [] }

/-- A concrete configuration used by witnesses and counterexamples. -/
def sampleParams : Params :=
  { vocab_file := "vocab.txt"
    batch_size := 4
    shuffle_buffer := 100
    dynamic_padding := false
    bucket_batch_sizes := [32, 16]
    bucket_boundaries := [64]
    max_seq_len := 8
    problem_list := ["cls"] }

/-- A filesystem holding one empty file, for exercising the
empty-file path of `predict_input_fn`. -/
def fsWithEmptyFile : String → Option (List String) :=
  fun p => if p = "empty.txt" then some [] else none

/-- A filesystem holding one two-line text file. -/
def fsWithTestFile : String → Option (List String) :=
  fun p => if p = "test.txt" then some ["hello\n", "world"] else none

/-! Helper lemmas about the record-writing fold. -/

lemma mem_foldl_insert (l acc : List String) (x : String) (h : x ∈ acc) :
    x ∈ l.foldl (fun acc t => if t ∈ acc then acc else acc ++ [t]) acc := by
  induction l generalizing acc with
  | nil => exact h
  | cons a l ih =>
      simp only [List.foldl_cons]
      apply ih
      by_cases hm : a ∈ acc
      · simpa [hm]
      · simp [hm, List.mem_append, h]

lemma mem_foldl_insert_of_mem (l acc : List String) (x : String) (h : x ∈ l) :
    x ∈ l.foldl (fun acc t => if t ∈ acc then acc else acc ++ [t]) acc := by
  induction l generalizing acc with
  | nil => cases h
  | cons a l ih =>
      simp only [List.foldl_cons]
      rcases List.mem_cons.mp h with rfl | hx
      · apply mem_foldl_insert
        by_cases hm : x ∈ acc
        · simp [hm]
        · simp [hm]
      · exact ih _ hx

lemma foldl_insert_of_subset (l acc : List String) (h : ∀ t ∈ l, t ∈ acc) :
    l.foldl (fun acc t => if t ∈ acc then acc else acc ++ [t]) acc = acc := by
  induction l with
  | nil => rfl
  | cons a l ih =>
      have ha : a ∈ acc := h a (List.mem_cons_self a l)
      simp only [List.foldl_cons, if_pos ha]
      exact ih fun t ht => h t (List.mem_cons_of_mem a ht)

lemma mem_write_tfrecord (params : Params) (fs : List String) (t : String)
    (h : t ∈ params.problem_list) : t ∈ write_tfrecord params fs :=
  mem_foldl_insert_of_mem _ _ _ h

lemma write_tfrecord_idem (params : Params) (fs : List String) :
    write_tfrecord params (write_tfrecord params fs) = write_tfrecord params fs :=
  foldl_insert_of_subset _ _ fun t ht => mem_write_tfrecord params fs t ht

lemma read_after_write (params : Params) (fs : List String) :
    read_tfrecord params (write_tfrecord params fs) =
      Except.ok params.problem_list := by
  unfold read_tfrecord
  rw [if_pos]
  exact List.all_eq_true.mpr fun t ht =>
    decide_eq_true (mem_write_tfrecord params fs t ht)

/-- C5: for every example record whose `input_ids` field is a sequence
of length `L`, `element_length_func` applied to that record returns `L`;
it is a pure function of the record. -/
theorem element_length_func_returns_length (d : Dict) (xs : List Int)
    (L : Nat) (h1 : dictLookup d "input_ids" = some xs)
    (h2 : xs.length = L) : element_length_func d = some L := by
  simp [element_length_func, h1, h2]

/-- Witness for C5 at a concrete record with `input_ids` of length 3. -/
theorem element_length_func_returns_length_witness :
    element_length_func (mkFeatureDict [1, 2, 3] [1, 1, 1] [0, 0, 0]) =
      some 3 :=
  element_length_func_returns_length _ [1, 2, 3] 3 (by decide) (by decide)

/-- C1: with `dynamic_padding = false`, the final pipeline step of
`train_eval_input_fn` is a fixed-size batch: of `batch_size` in train
mode and of `batch_size * 2` in any other mode, and no
bucket-by-sequence-length step occurs. -/
theorem fixed_batching_train_vs_eval (params : Params) (mode : String)
    (h : params.dynamic_padding = false) :
    (train_eval_pipeline params mode).getLast? =
      some (DatasetOp.batch
        (if mode = "train" then params.batch_size else params.batch_size * 2)) ∧
    ∀ bs bb, DatasetOp.bucketBySequenceLength bs bb ∉
      train_eval_pipeline params mode := by
  unfold train_eval_pipeline
  rw [h]
  by_cases hm : mode = "train" <;>
    simp [hm, List.getLast?_concat]

/-- Witness for C1: in eval mode with the sample configuration
(batch size 4, no dynamic padding), the last step batches 8 records. -/
theorem fixed_batching_train_vs_eval_witness :
    (train_eval_pipeline sampleParams "eval").getLast? =
      some (DatasetOp.batch 8) := by
  have h := (fixed_batching_train_vs_eval sampleParams "eval" (by decide)).1
  simpa using h

/-- C6: `train_eval_input_fn` shuffles (with buffer
`params.shuffle_buffer`) iff the mode is `train`, and prefetches with
auto-tuned lookahead in every mode. -/
theorem shuffle_iff_train_mode (params : Params) (mode : String) :
    (DatasetOp.shuffle params.shuffle_buffer ∈ train_eval_pipeline params mode
      ↔ mode = "train") ∧
    (∀ b, DatasetOp.shuffle b ∈ train_eval_pipeline params mode →
      b = params.shuffle_buffer) ∧
    DatasetOp.prefetchAutotune ∈ train_eval_pipeline params mode := by
  unfold train_eval_pipeline
  by_cases hm : mode = "train" <;>
    by_cases hd : params.dynamic_padding <;>
      simp [hm, hd]

/-- Witness for C6: with the sample configuration, the shuffle step is
present in train mode and the prefetch step is present in eval mode. -/
theorem shuffle_iff_train_mode_witness :
    DatasetOp.shuffle sampleParams.shuffle_buffer ∈
      train_eval_pipeline sampleParams "train" ∧
    DatasetOp.prefetchAutotune ∈ train_eval_pipeline sampleParams "eval" :=
  ⟨(shuffle_iff_train_mode sampleParams "train").1.mpr rfl,
   (shuffle_iff_train_mode sampleParams "eval").2.2⟩

/-- C8: `train_eval_input_fn` always succeeds, the filesystem it leaves
behind is a fixed point of the record-writing step (writing again is a
no-op), and a second call with the same configuration on that filesystem
succeeds with the same outcome. -/
theorem train_eval_input_fn_second_call_succeeds (params : Params)
    (mode : String) (fs : List String) :
    ∃ out, train_eval_input_fn params mode fs = Except.ok out ∧
      write_tfrecord params out.1 = out.1 ∧
      train_eval_input_fn params mode out.1 = Except.ok out := by
  refine ⟨(write_tfrecord params fs, train_eval_pipeline params mode), ?_, ?_, ?_⟩
  · simp [train_eval_input_fn, read_after_write]
  · exact write_tfrecord_idem params fs
  · simp [train_eval_input_fn, write_tfrecord_idem, read_after_write]

/-! Lemmas about `predict_input_fn`. -/

lemma encoder_of_predict_cons (config : Params)
    (fs : String → Option (List String)) (first : InputItem)
    (rest : List InputItem) :
    encoderOfResult (predict_input_fn (Sum.inr (first :: rest)) fs config) =
      some (selectEncoder first) := by
  simp [predict_input_fn, resolveInputs, encoderOfResult]

lemma dictKeys_encodeDoc (config : Params) (doc : String) :
    dictKeys (encodeDoc config doc) =
      ["input_ids", "input_mask", "segment_ids"] := by
  simp [encodeDoc, mkFeatureDict, dictKeys]

lemma chunkAux_nil (fuel n : Nat) : chunkAux fuel n ([] : List α) = [] := by
  cases fuel <;> rfl

lemma chunked_of_length_le (n : Nat) (a : α) (l : List α)
    (h : (a :: l).length ≤ n) : chunked n (a :: l) = [a :: l] := by
  show chunkAux (a :: l).length n (a :: l) = [a :: l]
  have htake : (a :: l).take n = a :: l := List.take_of_length_le h
  have hdrop : (a :: l).drop n = [] := List.drop_eq_nil_of_le h
  simp [List.length_cons, chunkAux, htake, hdrop, chunkAux_nil]

/-- C2: `predict_input_fn` dispatches on the first input element only: a
dictionary without key `'a'` selects the multimodal encoder
(`create_multimodal_bert_features`); a dictionary containing `'a'` or a
plain string selects the standard encoder (`create_bert_features`); and
the selected encoder is independent of the remaining elements. -/
theorem predict_dispatch_on_first_element (config : Params) :
    (∀ (keys : List String) (rest : List InputItem), "a" ∉ keys →
      encoderOfResult
        (predict_input_fn (Sum.inr (InputItem.dict keys :: rest)) fsEmpty config)
        = some Encoder.multimodal) ∧
    (∀ (keys : List String) (rest : List InputItem), "a" ∈ keys →
      encoderOfResult
        (predict_input_fn (Sum.inr (InputItem.dict keys :: rest)) fsEmpty config)
        = some Encoder.standard) ∧
    (∀ (s : String) (rest : List InputItem),
      encoderOfResult
        (predict_input_fn (Sum.inr (InputItem.str s :: rest)) fsEmpty config)
        = some Encoder.standard) ∧
    (∀ (first : InputItem) (rest rest2 : List InputItem),
      encoderOfResult
        (predict_input_fn (Sum.inr (first :: rest)) fsEmpty config) =
      encoderOfResult
        (predict_input_fn (Sum.inr (first :: rest2)) fsEmpty config)) := by
  refine ⟨?_, ?_, ?_, ?_⟩
  · intro keys rest h
    rw [encoder_of_predict_cons]
    simp [selectEncoder, h]
  · intro keys rest h
    rw [encoder_of_predict_cons]
    simp [selectEncoder, h]
  · intro s rest
    rw [encoder_of_predict_cons]
    simp [selectEncoder]
  · intro first rest rest2
    rw [encoder_of_predict_cons, encoder_of_predict_cons]

/-- Witness for C2: a single-element list whose element is a dictionary
without key `'a'` selects the multimodal encoder. -/
theorem predict_dispatch_on_first_element_witness :
    encoderOfResult
      (predict_input_fn (Sum.inr [InputItem.dict ["b"]]) fsEmpty sampleParams)
      = some Encoder.multimodal :=
  (predict_dispatch_on_first_element sampleParams).1 ["b"] [] (by decide)

/-- C10: on an empty input list, and on a file that reads as no lines,
`predict_input_fn` fails with an IndexError (raised by `inputs[0]`
during encoder dispatch); no dataset result is produced. -/
theorem predict_empty_input_raises (config : Params)
    (fs : String → Option (List String)) (path : String) :
    predict_input_fn (Sum.inr []) fs config =
      Except.error "IndexError: list index out of range" ∧
    (fs path = some [] →
      predict_input_fn (Sum.inl path) fs config =
        Except.error "IndexError: list index out of range") := by
  constructor
  · rfl
  · intro h
    simp [predict_input_fn, resolveInputs, h]

/-- Witness for C10: reading the concrete empty file raises the
IndexError. -/
theorem predict_empty_input_raises_witness :
    predict_input_fn (Sum.inl "empty.txt") fsWithEmptyFile sampleParams =
      Except.error "IndexError: list index out of range" :=
  (predict_empty_input_raises sampleParams fsWithEmptyFile "empty.txt").2 rfl

/-- C9: a string argument is treated as a file path and read as
newline-delimited lines (each line becoming a raw-string input), any
other argument is used directly as the input list; in both cases the
whole input list is eagerly encoded into `data_list` (one feature
dictionary per element, by the dispatched encoder) and the batched
dataset is derived from that fully-computed list. -/
theorem predict_resolution_and_eager_encoding (config : Params)
    (fs : String → Option (List String)) :
    (∀ (path : String) (l : String) (ls : List String),
      fs path = some (l :: ls) →
      ∃ r, predict_input_fn (Sum.inl path) fs config = Except.ok r ∧
        r.data_list =
          create_bert_features config ((l :: ls).map InputItem.str) ∧
        r.batches = chunked config.batch_size r.data_list) ∧
    (∀ (first : InputItem) (rest : List InputItem),
      ∃ r, predict_input_fn (Sum.inr (first :: rest)) fs config =
          Except.ok r ∧
        r.data_list =
          (match selectEncoder first with
           | Encoder.multimodal =>
               create_multimodal_bert_features config (first :: rest)
           | Encoder.standard =>
               create_bert_features config (first :: rest)) ∧
        r.batches = chunked config.batch_size r.data_list) := by
  constructor
  · intro path l ls h
    refine ⟨{ encoder := Encoder.standard
              data_list :=
                create_bert_features config ((l :: ls).map InputItem.str)
              batches := chunked config.batch_size
                (create_bert_features config ((l :: ls).map InputItem.str)) },
            ?_, ?_, ?_⟩
    · simp [predict_input_fn, resolveInputs, h, selectEncoder]
    · rfl
    · rfl
  · intro first rest
    refine ⟨{ encoder := selectEncoder first
              data_list :=
                match selectEncoder first with
                | Encoder.multimodal =>
                    create_multimodal_bert_features config (first :: rest)
                | Encoder.standard =>
                    create_bert_features config (first :: rest)
              batches := chunked config.batch_size
                (match selectEncoder first with
                 | Encoder.multimodal =>
                     create_multimodal_bert_features config (first :: rest)
                 | Encoder.standard =>
                     create_bert_features config (first :: rest)) },
            ?_, rfl, rfl⟩
    rfl

/-- Witness for C9: the two-line concrete file is read, encoded eagerly
with the standard encoder, and batched from the encoded list. -/
theorem predict_resolution_and_eager_encoding_witness :
    ∃ r, predict_input_fn (Sum.inl "test.txt") fsWithTestFile sampleParams =
        Except.ok r ∧
      r.data_list =
        create_bert_features sampleParams
          (["hello\n", "world"].map InputItem.str) ∧
      r.batches = chunked sampleParams.batch_size r.data_list :=
  (predict_resolution_and_eager_encoding sampleParams fsWithTestFile).1
    "test.txt" "hello\n" ["world"] rfl

/-- C7: for a configuration with batch size at least 2, a predict input
of exactly two plain strings yields exactly one batch, holding the two
encoded records, whose key sets coincide. -/
theorem predict_two_strings_one_batch (config : Params) (a b : String)
    (h : 2 ≤ config.batch_size) :
    ∃ r, predict_input_fn (Sum.inr [InputItem.str a, InputItem.str b])
        fsEmpty config = Except.ok r ∧
      r.batches = [[encodeDoc config a, encodeDoc config b]] ∧
      dictKeys (encodeDoc config a) = dictKeys (encodeDoc config b) := by
  refine ⟨{ encoder := Encoder.standard
            data_list :=
              create_bert_features config [InputItem.str a, InputItem.str b]
            batches := chunked config.batch_size
              (create_bert_features config
                [InputItem.str a, InputItem.str b]) },
          rfl, ?_, ?_⟩
  · show chunked config.batch_size
      (create_bert_features config [InputItem.str a, InputItem.str b]) = _
    rw [show create_bert_features config [InputItem.str a, InputItem.str b] =
        [encodeDoc config a, encodeDoc config b] from rfl]
    exact chunked_of_length_le _ _ _ (by simpa using h)
  · rw [dictKeys_encodeDoc, dictKeys_encodeDoc]

/-- Witness for C7 at the sample configuration (batch size 4) and two
concrete strings. -/
theorem predict_two_strings_one_batch_witness :
    ∃ r, predict_input_fn
        (Sum.inr [InputItem.str "ab", InputItem.str "cd"]) fsEmpty
        sampleParams = Except.ok r ∧
      r.batches = [[encodeDoc sampleParams "ab", encodeDoc sampleParams "cd"]] ∧
      dictKeys (encodeDoc sampleParams "ab") =
        dictKeys (encodeDoc sampleParams "cd") :=
  predict_two_strings_one_batch sampleParams "ab" "cd" (by decide)

/-! Lemmas about the `to_serving_input` generator. -/

lemma serving_foldl_yields (config : Params) (inputs : List String)
    (st : GenState) :
    (inputs.foldl (servingStep config) st).yields =
      st.yields ++ List.replicate inputs.length 0 := by
  induction inputs generalizing st with
  | nil => simp
  | cons a t ih =>
      simp only [List.foldl_cons, ih, List.length_cons]
      simp [servingStep, List.replicate_succ, List.append_assoc]

lemma serving_foldl_snaps (config : Params) (inputs : List String)
    (st : GenState) :
    (inputs.foldl (servingStep config) st).snaps =
      st.snaps ++ inputs.map (encodeDoc config) := by
  induction inputs generalizing st with
  | nil => simp
  | cons a t ih =>
      simp only [List.foldl_cons, ih, List.map_cons]
      simp [servingStep, List.append_assoc]

lemma serving_foldl_cell (config : Params) (inputs : List String)
    (st : GenState) (last : String) (h : inputs.getLast? = some last) :
    (inputs.foldl (servingStep config) st).cell = encodeDoc config last := by
  induction inputs generalizing st with
  | nil => cases h
  | cons a t ih =>
      cases t with
      | nil =>
          simp only [List.getLast?_singleton, Option.some.injEq] at h
          subst h
          rfl
      | cons b t2 =>
          rw [List.getLast?_cons_cons] at h
          exact ih (servingStep config st a) h

/-- C3 counterexample: on the input list `[""]` (one empty line) the
generator still yields once, while the claim's count of non-empty lines
is zero, so it does not yield "exactly one feature dictionary per
non-empty input line". -/
theorem to_serving_input_counterexample_empty_line :
    (to_serving_input sampleParams [""]).snaps.length ≠
      ([""].filter fun l => l ≠ "").length := by
  decide

/-- C3 (amended): `to_serving_input` yields exactly one feature
dictionary per input line (element), each containing exactly the keys
`input_ids`, `input_mask`, `segment_ids`; when every input line is
non-empty — as is the case for lines read from a file, which keep their
newline — the yield count equals the number of non-empty input lines. -/
theorem to_serving_input_one_dict_per_line (config : Params)
    (inputs : List String) :
    (to_serving_input config inputs).snaps.length = inputs.length ∧
    (∀ d ∈ (to_serving_input config inputs).snaps,
      dictKeys d = ["input_ids", "input_mask", "segment_ids"]) ∧
    ((∀ l ∈ inputs, l ≠ "") →
      (to_serving_input config inputs).snaps.length =
        (inputs.filter fun l => l ≠ "").length) := by
  have hs : (to_serving_input config inputs).snaps =
      inputs.map (encodeDoc config) := by
    unfold to_serving_input
    rw [serving_foldl_snaps]
    rfl
  refine ⟨?_, ?_, ?_⟩
  · rw [hs, List.length_map]
  · intro d hd
    rw [hs] at hd
    obtain ⟨l, _, rfl⟩ := List.mem_map.mp hd
    exact dictKeys_encodeDoc config l
  · intro hne
    rw [hs, List.length_map]
    have : inputs.filter (fun l => l ≠ "") = inputs :=
      List.filter_eq_self.mpr fun a ha => decide_eq_true (hne a ha)
    rw [this]

/-- Witness for C3 (amended) on two concrete newline-terminated lines. -/
theorem to_serving_input_one_dict_per_line_witness :
    (to_serving_input sampleParams ["hi\n", "yo\n"]).snaps.length = 2 ∧
    (to_serving_input sampleParams ["hi\n", "yo\n"]).snaps.length =
      (["hi\n", "yo\n"].filter fun l => l ≠ "").length :=
  ⟨(to_serving_input_one_dict_per_line sampleParams ["hi\n", "yo\n"]).1,
   (to_serving_input_one_dict_per_line sampleParams ["hi\n", "yo\n"]).2.2
     (by decide)⟩

/-- C4: `to_serving_input` owns a single mutable dictionary: every yield
is a reference to the same cell (address 0), and once the generator is
exhausted that cell holds the encoding of the last input line — so all
retained (uncopied) yielded references see only the last line's
features. -/
theorem to_serving_input_single_mutable_dict (config : Params)
    (inputs : List String) (last : String)
    (h : inputs.getLast? = some last) :
    (to_serving_input config inputs).yields =
      List.replicate inputs.length 0 ∧
    (to_serving_input config inputs).cell = encodeDoc config last := by
  constructor
  · unfold to_serving_input
    rw [serving_foldl_yields]
    rfl
  · exact serving_foldl_cell config inputs _ last h

/-- Witness for C4 on a concrete two-line input: both yields reference
cell 0 and the cell finally holds the second line's encoding. -/
theorem to_serving_input_single_mutable_dict_witness :
    (to_serving_input sampleParams ["a\n", "b\n"]).yields =
      List.replicate 2 0 ∧
    (to_serving_input sampleParams ["a\n", "b\n"]).cell =
      encodeDoc sampleParams "b\n" :=
  to_serving_input_single_mutable_dict sampleParams ["a\n", "b\n"] "b\n"
    (by decide)

end InputFn
